import Mathlib

/-!
Verification of the real-time collaboration core of the CodeCollab repository.

The definitions below are a shallow embedding of the collaboration subsystem:
the WebSocket connection manager and event router
(`src/shared/services/websocket.service.ts`), the cursor-update throttle
(`src/shared/hooks/useThrottle.ts`), the presence tracker
(`src/shared/stores/collaborationStore.ts`), the configuration constants
(`src/shared/config/constants.ts`), and the document-replica merge that the
spec describes.  Machine time is modelled as natural-number milliseconds,
JavaScript `Map`/`Set` objects as functions into `Option`/`Bool`, thrown
exceptions as `Except`, and socket.io connections as explicit state fields.
-/

namespace CodeCollab

/-! ## Configuration constants (`src/shared/config/constants.ts`) -/

namespace WEBSOCKET_CONFIG

def RECONNECT_INTERVAL : Nat := 3000

def MAX_RECONNECT_ATTEMPTS : Nat := 5

def HEARTBEAT_INTERVAL : Nat := 30000

end WEBSOCKET_CONFIG

namespace COLLABORATION_CONFIG

def CURSOR_UPDATE_THROTTLE : Nat := 100

def TYPING_INDICATOR_TIMEOUT : Nat := 2000

end COLLABORATION_CONFIG

/-! ## WebSocket service state (`websocket.service.ts`)

The fields of `WebSocketService` that the verified operations read or write:
`socketConnected` models `this.socket?.connected`, `isConnected` the
`isConnected` flag, and `userId`/`sessionId` the nullable string fields. -/

structure WsServiceState where
  socketConnected : Bool
  isConnected : Bool
  reconnectAttempts : Nat
  userId : Option String
  sessionId : Option String
  deriving DecidableEq, Repr

/-! ## `connect` (lines 23-62)

`connect(userId, sessionId)` first checks `this.socket?.connected`; when the
socket is already connected it resolves the promise at once and returns
without executing the assignments to `this.userId`/`this.sessionId` or the
`io(...)` call.  Otherwise it stores the ids and opens a new transport. -/

inductive ConnectOutcome where
  | resolvedImmediately
  | openedNewSocket
  deriving DecidableEq, Repr

def connect (s : WsServiceState) (userId sessionId : String) :
    WsServiceState × ConnectOutcome :=
  if s.socketConnected then
    (s, .resolvedImmediately)
  else
    ({ s with userId := some userId, sessionId := some sessionId },
     .openedNewSocket)

/-! ## `emit` (lines 234-248)

Throws when `this.socket?.connected` is falsy; otherwise builds the envelope
`{type, payload, sessionId, userId, timestamp}` (nullable ids coalesced to
`''`) and sends exactly that envelope via `socket.emit`.  The service's own
lifecycle notifications (`connection:lost`, `connection:reconnecting`,
`connection:failed`, `connection:error`) go through this same method, so
each of them throws whenever the socket is not connected. -/

structure WebSocketMessage (T : Type) where
  type : String
  payload : T
  sessionId : String
  userId : String
  timestamp : Nat
  deriving DecidableEq, Repr

/-- The single failure mode of `emit`: the `'WebSocket is not connected'`
error thrown on line 236. -/
inductive EmitError where
  | notConnected
  deriving DecidableEq, Repr

def emit {T : Type} (s : WsServiceState) (now : Nat) (event : String)
    (payload : T) : Except EmitError (WebSocketMessage T) :=
  if s.socketConnected = false then
    .error .notConnected
  else
    .ok { type := event, payload := payload,
          sessionId := s.sessionId.getD "", userId := s.userId.getD "",
          timestamp := now }

/-- Payloads of the internal lifecycle notifications the service emits
about its own connection. -/
inductive LifecyclePayload where
  | lost (reason : String)
  | reconnecting (attempt maxAttempts delayMs : Nat)
  | failedInfo (message : String)
  deriving DecidableEq, Repr

/-! ## `attemptReconnection` (lines 148-177)

The guard branch emits `connection:failed` and returns; otherwise the
counter is incremented (line 160), `connection:reconnecting` is emitted
(line 165), and only then is the reconnect timer set (line 171).  Both
emissions go through the throwing `emit` above: when the socket is not
connected — which is the case in every reachable invocation, the routine
running only after a disconnect or a failed connect — the method aborts
with the not-connected error at the emit call, before `setTimeout`.
`scheduledReconnect` records a timer only when control actually reaches
line 171, and `sent` the envelopes actually handed to the socket. -/

structure ReconnectResult where
  state : WsServiceState
  /-- Envelopes the internal emits actually sent. -/
  sent : List (WebSocketMessage LifecyclePayload)
  /-- The not-connected error aborting the routine, if an internal emit
  threw. -/
  thrown : Option EmitError
  /-- The `(attempt, delayMs)` of the reconnect timer, if `setTimeout` was
  reached. -/
  scheduledReconnect : Option (Nat × Nat)
  deriving DecidableEq, Repr

def attemptReconnection (s : WsServiceState) (now : Nat) : ReconnectResult :=
  if WEBSOCKET_CONFIG.MAX_RECONNECT_ATTEMPTS ≤ s.reconnectAttempts
      ∨ s.userId = none ∨ s.sessionId = none then
    match emit s now "connection:failed"
        (LifecyclePayload.failedInfo "Max reconnection attempts reached") with
    | .error e =>
      { state := s, sent := [], thrown := some e, scheduledReconnect := none }
    | .ok m =>
      { state := s, sent := [m], thrown := none, scheduledReconnect := none }
  else
    let attempts := s.reconnectAttempts + 1
    let s' := { s with reconnectAttempts := attempts }
    let delayMs := WEBSOCKET_CONFIG.RECONNECT_INTERVAL * 2 ^ (attempts - 1)
    match emit s' now "connection:reconnecting"
        (LifecyclePayload.reconnecting attempts
          WEBSOCKET_CONFIG.MAX_RECONNECT_ATTEMPTS delayMs) with
    | .error e =>
      { state := s', sent := [], thrown := some e, scheduledReconnect := none }
    | .ok m =>
      { state := s', sent := [m], thrown := none,
        scheduledReconnect := some (attempts, delayMs) }

/-! ## `handleDisconnect` (lines 118-129)

Sets `isConnected := false`, then emits `connection:lost` through the
throwing `emit` — during a `'disconnect'` event `socket.connected` is
already false, so that call throws and the code below it never runs; in the
hypothetical state where the emit succeeds, the server-initiated reason
`'io server disconnect'` returns before `attemptReconnection`, any other
reason invoking the routine once. -/

def ioServerDisconnect : String := "io server disconnect"

structure DisconnectResult where
  state : WsServiceState
  sent : List (WebSocketMessage LifecyclePayload)
  thrown : Option EmitError
  scheduledReconnect : Option (Nat × Nat)
  /-- How many times `attemptReconnection` was invoked by this call. -/
  reconnectCalls : Nat
  deriving DecidableEq, Repr

def handleDisconnect (s : WsServiceState) (reason : String) (now : Nat) :
    DisconnectResult :=
  let s1 := { s with isConnected := false }
  match emit s1 now "connection:lost" (LifecyclePayload.lost reason) with
  | .error e =>
    { state := s1, sent := [], thrown := some e,
      scheduledReconnect := none, reconnectCalls := 0 }
  | .ok m =>
    if reason = ioServerDisconnect then
      { state := s1, sent := [m], thrown := none,
        scheduledReconnect := none, reconnectCalls := 0 }
    else
      let r := attemptReconnection s1 now
      { state := r.state, sent := m :: r.sent, thrown := r.thrown,
        scheduledReconnect := r.scheduledReconnect, reconnectCalls := 1 }

/-! ## Inbound dispatch: `handleMessage` (lines 197-209)

Each registered handler is invoked inside a `try`/`catch`; a thrown exception
is swallowed so the remaining handlers still run.  A handler is modelled as a
function returning `Except ε Unit`; `runHandler` is one guarded invocation,
returning the caught exception if the handler threw. -/

def runHandler {α ε : Type} (h : α → Except ε Unit) (payload : α) : Option ε :=
  match h payload with
  | .ok _ => none
  | .error e => some e

def handleMessage {α ε : Type} (handlers : List (α → Except ε Unit))
    (payload : α) : List (Option ε) :=
  match handlers with
  | [] => []
  | h :: hs => runHandler h payload :: handleMessage hs payload

/-- A handler that always succeeds, for exercising dispatch on concrete
input. -/
def okHandler : Nat → Except String Unit := fun _ => Except.ok ()

/-- A handler that throws `"boom"` on payload `0`, for exercising dispatch
on concrete input. -/
def boomHandler : Nat → Except String Unit :=
  fun n => if n = 0 then Except.error "boom" else Except.ok ()

/-! ## Handler registry: `on` and its unsubscribe closure (lines 214-229)

`eventHandlers` is a `Map<string, Set<handler>>`; handler identity (JS
reference equality) is modelled by a numeric id.  The map is modelled as a
total function into lists, an absent key being the empty list; a `Set` is a
duplicate-free list in insertion order (`Set.add` appends only when absent,
`Set.delete` erases the element). -/

abbrev HandlerId := Nat

abbrev Registry := String → List HandlerId

def onRegister (reg : Registry) (event : String) (h : HandlerId) : Registry :=
  fun e =>
    if e = event then
      if h ∈ reg event then reg event else reg event ++ [h]
    else reg e

/-- The closure returned by `on`: deletes exactly the captured handler from
the captured event's set (clearing the now-empty key amounts to the empty
list in this encoding). -/
def unsubscribe (reg : Registry) (event : String) (h : HandlerId) : Registry :=
  fun e => if e = event then (reg event).erase h else reg e

/-! ## Cursor throttle: `useThrottle` (`useThrottle.ts` lines 17-41)

`lastRun` is the time of the last executed call; `pending` models
`timeoutRef`, holding the scheduled fire time and the captured arguments.  A
call arriving at least `delay` ms after `lastRun` runs immediately; any other
call clears the previous timeout and schedules itself
`delay - (now - lastRun)` ms later.  When the timeout fires it runs the
captured call and sets `lastRun` to the fire time. -/

structure ThrottleState (α : Type) where
  lastRun : Nat
  pending : Option (Nat × α)
  deriving DecidableEq, Repr

def throttleCall {α : Type} (delay : Nat) (s : ThrottleState α) (now : Nat)
    (args : α) : ThrottleState α × Option α :=
  if delay ≤ now - s.lastRun then
    ({ lastRun := now, pending := s.pending }, some args)
  else
    ({ lastRun := s.lastRun,
       pending := some (now + (delay - (now - s.lastRun)), args) }, none)

def throttleFire {α : Type} (s : ThrottleState α) (now : Nat) :
    ThrottleState α × Option α :=
  match s.pending with
  | none => (s, none)
  | some (t, args) =>
    if t ≤ now then ({ lastRun := now, pending := none }, some args)
    else (s, none)

/-- Processes a burst of timestamped calls in order, returning the final
throttle state and the list of `(time, args)` that were transmitted
immediately (scheduled trailing calls stay in `pending`). -/
def throttleBurst {α : Type} (delay : Nat) (s : ThrottleState α) :
    List (Nat × α) → ThrottleState α × List (Nat × α)
  | [] => (s, [])
  | (t, a) :: rest =>
    let r := throttleCall delay s t a
    let r2 := throttleBurst delay r.1 rest
    (r2.1, (match r.2 with | some x => [(t, x)] | none => []) ++ r2.2)

/-- The arguments of the last call of a burst (`a` when the rest is empty). -/
def lastArg {α : Type} (a : α) : List (Nat × α) → α
  | [] => a
  | q :: rest => lastArg q.2 rest

/-! ## Presence tracker: `collaborationStore.ts`

`participants` and `cursorPositions` are `Map`s, `typingUsers` a `Set`,
modelled as total functions keyed by user id. -/

structure User where
  id : String
  name : String
  deriving DecidableEq, Repr

structure CursorPosition where
  lineNumber : Nat
  column : Nat
  deriving DecidableEq, Repr

structure Participant where
  user : User
  cursorPosition : CursorPosition
  color : String
  isActive : Bool
  lastSeen : Nat
  deriving DecidableEq, Repr

structure CollaborationState where
  participants : String → Option Participant
  cursorPositions : String → Option CursorPosition
  typingUsers : String → Bool

def emptyCollaborationState : CollaborationState :=
  { participants := fun _ => none,
    cursorPositions := fun _ => none,
    typingUsers := fun _ => false }

/-- `removeParticipant` (lines 42-58): one `set` call deleting the user's
entry from all three collections in a single state update. -/
def removeParticipant (s : CollaborationState) (userId : String) :
    CollaborationState :=
  { participants := fun k => if k = userId then none else s.participants k,
    cursorPositions := fun k => if k = userId then none else s.cursorPositions k,
    typingUsers := fun k => if k = userId then false else s.typingUsers k }

/-- `setUserTyping` (lines 77-86): adds the user to `typingUsers` when
`isTyping` is true, deletes it otherwise.  The store registers no timer of
any kind. -/
def setUserTyping (s : CollaborationState) (userId : String)
    (isTyping : Bool) : CollaborationState :=
  { s with typingUsers := fun k => if k = userId then isTyping else s.typingUsers k }

/-- A concrete two-participant store state used to exercise the tracker
operations on explicit input. -/
def demoCollabState : CollaborationState :=
  { participants := fun k =>
      if k = "u1" then some ⟨⟨"u1", "Alice"⟩, ⟨1, 1⟩, "#ff0000", true, 0⟩
      else if k = "u2" then some ⟨⟨"u2", "Bob"⟩, ⟨2, 4⟩, "#00ff00", true, 0⟩
      else none,
    cursorPositions := fun k => if k = "u1" then some ⟨1, 1⟩ else none,
    typingUsers := fun k => k == "u1" }

/-! ## Timed execution of the tracker

To talk about virtual time we run the store inside a timed system: an event
is either a store action or one millisecond of silence.  `timers` holds the
clear-typing timers scheduled so far, fired when due; faithful to the source,
`setUserTyping` schedules none, so the list only ever shrinks. -/

inductive TrackerEvent where
  | setTyping (userId : String) (isTyping : Bool)
  | tick
  deriving DecidableEq, Repr

structure TrackerState where
  store : CollaborationState
  now : Nat
  timers : List (Nat × String)

def trackerStep (s : TrackerState) : TrackerEvent → TrackerState
  | .setTyping u b => { s with store := setUserTyping s.store u b, timers := s.timers }
  | .tick =>
    let now := s.now + 1
    let due := s.timers.filter (fun t => decide (t.1 ≤ now))
    { store := due.foldl (fun st t => setUserTyping st t.2 false) s.store,
      now := now,
      timers := s.timers.filter (fun t => decide (now < t.1)) }

def trackerRun (s : TrackerState) (events : List TrackerEvent) : TrackerState :=
  events.foldl trackerStep s

/-! ## Document Replica (spec §4.4)

The source ships only the wire-level `ChangeOperation` record and the
`sendContentChange` caller; the merge itself (`applyLocal`/`applyRemote`) is
absent from the repository, so it is modelled here from the specification's
contract. -/

/-- Modelled from the spec: the operation kinds of `ChangeOperation`
(`'insert' | 'delete' | 'replace'`). -/
inductive OpKind where
  | insert
  | delete
  | replace
  deriving DecidableEq, Repr

/-- Modelled from the spec: the Operation record
`{ kind, position, content, originUserId, logicalClock, localSequence }`.
`position` is the linear character index used by the spec's §8 scenario
("insert X at position 1" in `"ab"`); the local sequence number is not a
field but the operation's index in the originating replica's outbox, since
the spec assigns it only at `applyLocal` time. -/
structure Operation where
  kind : OpKind
  position : Nat
  content : List Char
  originUserId : Nat
  logicalClock : Nat
  deriving DecidableEq, Repr

/-- Modelled from the spec: the effect of one operation on the text, with an
out-of-bounds position "clamped to the nearest valid boundary rather than
rejected".  `content.length` is the extent of a delete or the replaced
span. -/
def applyOp (text : List Char) (op : Operation) : List Char :=
  let p := min op.position text.length
  match op.kind with
  | .insert => text.take p ++ op.content ++ text.drop p
  | .delete => text.take p ++ text.drop (p + op.content.length)
  | .replace => text.take p ++ op.content ++ text.drop (p + op.content.length)

/-- Modelled from the spec: the deterministic merge order — operations are
"ordered by logical clock for merge" with the tie-break "deterministic
ordering by originUserId" for concurrent operations at equal clocks. -/
def opLE (a b : Operation) : Prop :=
  a.logicalClock < b.logicalClock ∨
    (a.logicalClock = b.logicalClock ∧ a.originUserId ≤ b.originUserId)

instance : DecidableRel opLE := fun a b => by
  unfold opLE; exact inferInstance

instance : IsTotal Operation opLE := ⟨by intro a b; unfold opLE; omega⟩

instance : IsTrans Operation opLE := ⟨by intro a b c; unfold opLE; omega⟩

def sortOps (l : List Operation) : List Operation := List.insertionSort opLE l

/-- Modelled from the spec: the text of a replica is obtained by replaying
its received operation set in the canonical merge order over the seed text
obtained from the local file store. -/
def render (seed : List Char) (ops : List Operation) : List Char :=
  (sortOps ops).foldl applyOp seed

/-- Modelled from the spec: a Document Replica — the seed text, the set of
operations merged so far (duplicate-free, kept as a list), and the outbox of
local operations queued for transmission (the index in this queue is the
operation's local sequence number). -/
structure Replica where
  seed : List Char
  ops : List Operation
  outbox : List Operation
  deriving DecidableEq, Repr

def Replica.init (seed : List Char) : Replica :=
  { seed := seed, ops := [], outbox := [] }

def Replica.text (r : Replica) : List Char := render r.seed r.ops

/-- Modelled from the spec: `applyRemote(op)` merges an operation
originating elsewhere; the merge is idempotent, so an operation already
merged is skipped. -/
def applyRemote (r : Replica) (op : Operation) : Replica :=
  if op ∈ r.ops then r else { r with ops := op :: r.ops }

/-- Modelled from the spec: `applyLocal(op)` applies the operation
immediately to the local state and queues it for transmission, its position
in the outbox being its local sequence number. -/
def applyLocal (r : Replica) (op : Operation) : Replica :=
  { applyRemote r op with outbox := r.outbox ++ [op] }

/-- One delivered operation, tagged with whether it reached the replica as a
local edit or from the network. -/
inductive Delivery where
  | localEdit (op : Operation)
  | remote (op : Operation)
  deriving DecidableEq, Repr

def Delivery.op : Delivery → Operation
  | .localEdit op => op
  | .remote op => op

def applyDelivery (r : Replica) : Delivery → Replica
  | .localEdit op => applyLocal r op
  | .remote op => applyRemote r op

def applyAll (r : Replica) (l : List Delivery) : Replica :=
  l.foldl applyDelivery r

/-- Key injectivity on a list of operations: within the list, the pair
`(originUserId, logicalClock)` identifies the operation — the premise under
which the spec's tie-break rule makes the merge order deterministic
(causally independent operations from one origin carry distinct clocks). -/
def KeyInj (l : List Operation) : Prop :=
  ∀ a ∈ l, ∀ b ∈ l,
    a.originUserId = b.originUserId → a.logicalClock = b.logicalClock → a = b

instance (l : List Operation) : Decidable (KeyInj l) := by
  unfold KeyInj; exact inferInstance

/-! ## Supporting lemmas for the merge -/

lemma opLE_refl (a : Operation) : opLE a a := by
  unfold opLE; omega

lemma opLE_key_antisymm {a b : Operation} (h1 : opLE a b) (h2 : opLE b a) :
    a.originUserId = b.originUserId ∧ a.logicalClock = b.logicalClock := by
  unfold opLE at h1 h2; omega

/-- Two sorted lists that are permutations of each other and whose keys are
injective coincide: the canonical merge order is unambiguous. -/
lemma eq_of_perm_of_sorted_of_keyInj {l₁ l₂ : List Operation}
    (hp : l₁.Perm l₂) (hs₁ : l₁.Sorted opLE) (hs₂ : l₂.Sorted opLE)
    (hk : KeyInj l₁) : l₁ = l₂ := by
  induction l₁ generalizing l₂ with
  | nil => exact (hp.symm.eq_nil).symm
  | cons a t₁ ih =>
    cases l₂ with
    | nil => exact absurd hp.eq_nil (by simp)
    | cons b t₂ =>
      have hab : a ∈ b :: t₂ := hp.subset (List.mem_cons_self a t₁)
      have hba : b ∈ a :: t₁ := hp.symm.subset (List.mem_cons_self b t₂)
      have h1 : opLE a b := by
        rcases List.mem_cons.mp hba with hb | hb
        · rw [hb]; exact opLE_refl a
        · exact List.rel_of_sorted_cons hs₁ b hb
      have h2 : opLE b a := by
        rcases List.mem_cons.mp hab with ha | ha
        · rw [ha]; exact opLE_refl b
        · exact List.rel_of_sorted_cons hs₂ a ha
      have hkey := opLE_key_antisymm h1 h2
      have heq : a = b := hk a (List.mem_cons_self a t₁) b hba hkey.1 hkey.2
      subst heq
      have htail := ih hp.cons_inv (List.sorted_cons.mp hs₁).2
        (List.sorted_cons.mp hs₂).2
        (fun x hx y hy => hk x (List.mem_cons_of_mem a hx) y
          (List.mem_cons_of_mem a hy))
      rw [htail]

lemma sortOps_perm (l : List Operation) : (sortOps l).Perm l :=
  List.perm_insertionSort opLE l

lemma sortOps_sorted (l : List Operation) : List.Sorted opLE (sortOps l) :=
  List.sorted_insertionSort opLE l

lemma sortOps_eq_of_perm {l₁ l₂ : List Operation} (hp : l₁.Perm l₂)
    (hk : KeyInj l₁) : sortOps l₁ = sortOps l₂ := by
  refine eq_of_perm_of_sorted_of_keyInj
    ((sortOps_perm l₁).trans (hp.trans (sortOps_perm l₂).symm))
    (sortOps_sorted l₁) (sortOps_sorted l₂) ?_
  intro a ha b hb
  exact hk a ((sortOps_perm l₁).mem_iff.mp ha) b
    ((sortOps_perm l₁).mem_iff.mp hb)

lemma applyRemote_seed (r : Replica) (op : Operation) :
    (applyRemote r op).seed = r.seed := by
  unfold applyRemote; split <;> rfl

lemma applyDelivery_seed (r : Replica) (d : Delivery) :
    (applyDelivery r d).seed = r.seed := by
  cases d with
  | localEdit op => exact applyRemote_seed r op
  | remote op => exact applyRemote_seed r op

lemma applyDelivery_ops (r : Replica) (d : Delivery) :
    (applyDelivery r d).ops = (applyRemote r d.op).ops := by
  cases d <;> rfl

lemma mem_applyRemote_ops (r : Replica) (op a : Operation) :
    a ∈ (applyRemote r op).ops ↔ a = op ∨ a ∈ r.ops := by
  by_cases hm : op ∈ r.ops <;> simp only [applyRemote, hm, if_true, if_false,
    ite_true, ite_false, List.mem_cons]
  constructor
  · exact Or.inr
  · rintro (rfl | ha)
    · exact hm
    · exact ha

lemma nodup_applyRemote_ops (r : Replica) (op : Operation)
    (h : r.ops.Nodup) : (applyRemote r op).ops.Nodup := by
  by_cases hm : op ∈ r.ops <;> simp [applyRemote, hm, h, List.nodup_cons]

lemma applyAll_seed (r : Replica) (l : List Delivery) :
    (applyAll r l).seed = r.seed := by
  induction l generalizing r with
  | nil => rfl
  | cons d l ih =>
    show (applyAll (applyDelivery r d) l).seed = r.seed
    rw [ih, applyDelivery_seed]

lemma mem_applyAll_ops (r : Replica) (l : List Delivery) (a : Operation) :
    a ∈ (applyAll r l).ops ↔ a ∈ r.ops ∨ a ∈ l.map Delivery.op := by
  induction l generalizing r with
  | nil => simp [applyAll]
  | cons d l ih =>
    show a ∈ (applyAll (applyDelivery r d) l).ops ↔ _
    rw [ih, applyDelivery_ops, mem_applyRemote_ops]
    simp only [List.map_cons, List.mem_cons]
    tauto

lemma nodup_applyAll_ops (r : Replica) (l : List Delivery)
    (h : r.ops.Nodup) : (applyAll r l).ops.Nodup := by
  induction l generalizing r with
  | nil => exact h
  | cons d l ih =>
    show (applyAll (applyDelivery r d) l).ops.Nodup
    refine ih (applyDelivery r d) ?_
    rw [applyDelivery_ops]
    exact nodup_applyRemote_ops r d.op h

/-! ## Supporting lemmas for the handler registry -/

lemma mem_onRegister_self (reg : Registry) (event : String) (h : HandlerId) :
    h ∈ onRegister reg event h event := by
  by_cases hm : h ∈ reg event <;> simp [onRegister, hm]

lemma mem_onRegister_mono (reg : Registry) (event : String)
    (a x : HandlerId) (hx : x ∈ reg event) :
    x ∈ onRegister reg event a event := by
  by_cases hm : a ∈ reg event <;> simp [onRegister, hm, hx]

/-! ## Supporting lemmas for the throttle and the tracker -/

/-- One cons step of `throttleBurst`, stated as the definitional unfolding. -/
lemma throttleBurst_cons {α : Type} (delay : Nat) (s : ThrottleState α)
    (t : Nat) (a : α) (rest : List (Nat × α)) :
    throttleBurst delay s ((t, a) :: rest)
      = ((throttleBurst delay (throttleCall delay s t a).1 rest).1,
         (match (throttleCall delay s t a).2 with
          | some x => [(t, x)] | none => [])
           ++ (throttleBurst delay (throttleCall delay s t a).1 rest).2) :=
  rfl

/-- A burst tail entirely inside the interval `[t₀, t₀ + delay)` never
transmits: each call replaces the pending timeout with one firing at
`t₀ + delay` carrying its own arguments. -/
lemma throttleBurst_scheduled {α : Type} (delay t₀ : Nat) (b : α)
    (rest : List (Nat × α))
    (hrest : ∀ q ∈ rest, t₀ ≤ q.1 ∧ q.1 < t₀ + delay) :
    throttleBurst delay ⟨t₀, some (t₀ + delay, b)⟩ rest
      = (⟨t₀, some (t₀ + delay, lastArg b rest)⟩, []) := by
  induction rest generalizing b with
  | nil => rfl
  | cons q rest ih =>
    obtain ⟨qt, qa⟩ := q
    obtain ⟨hq1, hq2⟩ := hrest (qt, qa) (List.mem_cons_self _ rest)
    have hc : ¬ delay ≤ qt - t₀ := by omega
    have harith : qt + (delay - (qt - t₀)) = t₀ + delay := by omega
    have hstep : throttleCall delay ⟨t₀, some (t₀ + delay, b)⟩ qt qa
        = (⟨t₀, some (t₀ + delay, qa)⟩, none) := by
      simp only [throttleCall, hc, if_false, ite_false]
      rw [harith]
    rw [throttleBurst_cons, hstep,
      ih qa (fun p hp => hrest p (List.mem_cons_of_mem _ hp))]
    rfl

/-- With no timer pending, any number of silent milliseconds leaves the
tracker's store untouched: faithful to the source, nothing ever fires. -/
lemma trackerRun_ticks_no_timers (s : TrackerState) (h : s.timers = [])
    (n : Nat) :
    trackerRun s (List.replicate n TrackerEvent.tick)
      = { store := s.store, now := s.now + n, timers := [] } := by
  induction n generalizing s with
  | zero =>
    show s = _
    cases s with
    | mk store now timers =>
      simp only [Nat.add_zero]
      congr 1
  | succ n ih =>
    rw [List.replicate_succ]
    show trackerRun (trackerStep s .tick) (List.replicate n .tick) = _
    have hstep : trackerStep s .tick
        = { store := s.store, now := s.now + 1, timers := [] } := by
      simp [trackerStep, h]
    rw [hstep, ih _ rfl]
    congr 1
    show s.now + 1 + n = s.now + (n + 1)
    omega

/-! ## Claim theorems -/

/-- C1: Convergence of the Document Replica merge — two replicas seeded with
the same text that each receive the same multiset of causally-independent
insert/delete/replace operations (`hperm`), in any delivery order and through
any mix of `applyLocal`/`applyRemote`, end with identical final text.
Causal independence is reflected by the key-injectivity premise: the spec's
tie-break pair `(originUserId, logicalClock)` identifies each operation. -/
theorem C1_document_replica_convergence (seed : List Char)
    (l₁ l₂ : List Delivery)
    (hperm : (l₁.map Delivery.op).Perm (l₂.map Delivery.op))
    (hkeys : KeyInj (l₁.map Delivery.op)) :
    (applyAll (Replica.init seed) l₁).text
      = (applyAll (Replica.init seed) l₂).text := by
  unfold Replica.text render
  have hnil : (Replica.init seed).ops = [] := rfl
  have hops : (applyAll (Replica.init seed) l₁).ops.Perm
      (applyAll (Replica.init seed) l₂).ops := by
    rw [List.perm_ext_iff_of_nodup
      (nodup_applyAll_ops _ _ (by rw [hnil]; exact List.nodup_nil))
      (nodup_applyAll_ops _ _ (by rw [hnil]; exact List.nodup_nil))]
    intro a
    rw [mem_applyAll_ops, mem_applyAll_ops, hnil]
    simp only [List.not_mem_nil, false_or]
    exact hperm.mem_iff
  have hk1 : KeyInj (applyAll (Replica.init seed) l₁).ops := by
    intro a ha b hb
    have ha' := (mem_applyAll_ops _ _ a).mp ha
    have hb' := (mem_applyAll_ops _ _ b).mp hb
    rw [hnil] at ha' hb'
    simp only [List.not_mem_nil, false_or] at ha' hb'
    exact hkeys a ha' b hb'
  rw [sortOps_eq_of_perm hops hk1, applyAll_seed, applyAll_seed]

/-- Witness for C1: the spec's §8 scenario.  Replica A seeds `"ab"`, applies
its own insert of `'X'` at position 1 locally and then receives B's delete of
position 0; replica B applies its delete locally and then receives A's
insert.  Both end with the same text. -/
theorem C1_document_replica_convergence_witness :
    (applyAll (Replica.init "ab".toList)
      [Delivery.localEdit ⟨.insert, 1, ['X'], 1, 1⟩,
       Delivery.remote ⟨.delete, 0, ['a'], 2, 1⟩]).text
      = (applyAll (Replica.init "ab".toList)
          [Delivery.localEdit ⟨.delete, 0, ['a'], 2, 1⟩,
           Delivery.remote ⟨.insert, 1, ['X'], 1, 1⟩]).text :=
  C1_document_replica_convergence "ab".toList _ _ (by decide) (by decide)

/-- C2: the claimed exponential backoff is dead code.  Every reachable
invocation of `attemptReconnection` happens while the socket is
disconnected, and there the routine aborts at its internal emit: on a fresh
transient failure (counter `0`, ids present) the `connection:reconnecting`
emission throws the not-connected error before `setTimeout`, so no
reconnect is ever scheduled and nothing is sent (the counter having already
been incremented); at the exhausted counter the `connection:failed`
emission throws equally, so no terminal event is ever surfaced; and a
transient disconnect aborts even earlier, inside `handleDisconnect` at the
`connection:lost` emission, invoking the routine zero times. -/
theorem C2_reconnect_backoff_dead_code :
    attemptReconnection ⟨false, false, 0, some "u", some "s"⟩ 0
      = { state := ⟨false, false, 1, some "u", some "s"⟩, sent := [],
          thrown := some .notConnected, scheduledReconnect := none }
    ∧ attemptReconnection ⟨false, false,
        WEBSOCKET_CONFIG.MAX_RECONNECT_ATTEMPTS, some "u", some "s"⟩ 0
      = { state := ⟨false, false, WEBSOCKET_CONFIG.MAX_RECONNECT_ATTEMPTS,
            some "u", some "s"⟩, sent := [],
          thrown := some .notConnected, scheduledReconnect := none }
    ∧ handleDisconnect ⟨false, false, 0, some "u", some "s"⟩
        "transport close" 0
      = { state := ⟨false, false, 0, some "u", some "s"⟩, sent := [],
          thrown := some .notConnected, scheduledReconnect := none,
          reconnectCalls := 0 } :=
  ⟨by decide, by decide, by decide⟩

/-- C3: Graceful disconnect suppression — for every service state and
clock, a disconnect whose reason is the server-initiated
`'io server disconnect'` invokes `attemptReconnection` zero times and
schedules no reconnect timer: when the internal `connection:lost` emission
succeeds, the reason check returns before the routine, and when it throws —
the actual runtime path, the socket being already disconnected — the
routine is equally never reached. -/
theorem C3_graceful_disconnect_suppression (s : WsServiceState) (now : Nat) :
    (handleDisconnect s ioServerDisconnect now).reconnectCalls = 0
    ∧ (handleDisconnect s ioServerDisconnect now).scheduledReconnect = none := by
  unfold handleDisconnect
  by_cases hb : s.socketConnected = false
  · simp [emit, hb]
  · simp [emit, hb]

/-- C4: `emit` — with no active connection the call fails with the typed
not-connected error; otherwise it sends exactly the envelope
`{type, payload, sessionId, userId, timestamp}`. -/
theorem C4_emit_envelope {T : Type} (s : WsServiceState) (now : Nat)
    (event : String) (payload : T) :
    (s.socketConnected = false →
      emit s now event payload = .error .notConnected)
    ∧ (s.socketConnected = true →
      emit s now event payload
        = .ok { type := event, payload := payload,
                sessionId := s.sessionId.getD "",
                userId := s.userId.getD "", timestamp := now }) := by
  constructor <;> intro h <;> simp [emit, h]

/-- Witness for C4: a disconnected service rejects a `cursor_move` emission;
a connected one sends the exact envelope. -/
theorem C4_emit_envelope_witness :
    emit ⟨false, false, 0, none, none⟩ 5 "cursor_move" (7 : Nat)
      = .error .notConnected
    ∧ emit ⟨true, true, 0, some "u1", some "s1"⟩ 5 "cursor_move" (7 : Nat)
      = .ok ⟨"cursor_move", 7, "s1", "u1", 5⟩ :=
  ⟨(C4_emit_envelope _ 5 "cursor_move" 7).1 rfl,
   (C4_emit_envelope _ 5 "cursor_move" 7).2 rfl⟩

/-- C10: when the transport socket is already connected, `connect` resolves
immediately, leaving the whole state — in particular the stored `userId` and
`sessionId` from the earlier connect — untouched, so the new call's
arguments are ignored. -/
theorem C10_connect_when_already_connected (s : WsServiceState)
    (u sid : String) (h : s.socketConnected = true) :
    connect s u sid = (s, .resolvedImmediately)
    ∧ (connect s u sid).1.userId = s.userId
    ∧ (connect s u sid).1.sessionId = s.sessionId := by
  have he : connect s u sid = (s, .resolvedImmediately) := by
    simp [connect, h]
  exact ⟨he, by rw [he], by rw [he]⟩

/-- Witness for C10: a second `connect` as `"bob"` on a socket already
connected as `"alice"` keeps the session identity `"alice"`/`"s1"`. -/
theorem C10_connect_when_already_connected_witness :
    connect ⟨true, true, 0, some "alice", some "s1"⟩ "bob" "s2"
      = (⟨true, true, 0, some "alice", some "s1"⟩, .resolvedImmediately)
    ∧ (connect ⟨true, true, 0, some "alice", some "s1"⟩ "bob" "s2").1.userId
      = some "alice"
    ∧ (connect ⟨true, true, 0, some "alice", some "s1"⟩ "bob" "s2").1.sessionId
      = some "s1" :=
  C10_connect_when_already_connected _ "bob" "s2" rfl

/-- C5: Cursor throttling — a burst of at least two updates inside one
throttle interval, starting with the throttle idle (at least `delay` ms
since the last run), transmits exactly its first update immediately; every
later update of the burst only replaces the pending trailing timeout, which
fires at the interval boundary `t₀ + delay` carrying the burst's last
update, so nothing is over-sent and the trailing update is not dropped. -/
theorem C5_cursor_throttle {α : Type} (delay lastRun t₀ : Nat) (a₀ : α)
    (q : Nat × α) (rest : List (Nat × α))
    (hdelay : 0 < delay) (hstart : lastRun + delay ≤ t₀)
    (hq : t₀ ≤ q.1 ∧ q.1 < t₀ + delay)
    (hrest : ∀ p ∈ rest, t₀ ≤ p.1 ∧ p.1 < t₀ + delay) :
    (throttleBurst delay ⟨lastRun, none⟩ ((t₀, a₀) :: q :: rest)).2
      = [(t₀, a₀)]
    ∧ (throttleBurst delay ⟨lastRun, none⟩ ((t₀, a₀) :: q :: rest)).1
      = ⟨t₀, some (t₀ + delay, lastArg q.2 rest)⟩
    ∧ throttleFire
        (throttleBurst delay ⟨lastRun, none⟩ ((t₀, a₀) :: q :: rest)).1
        (t₀ + delay)
      = (⟨t₀ + delay, none⟩, some (lastArg q.2 rest)) := by
  obtain ⟨qt, qa⟩ := q
  obtain ⟨hq1, hq2⟩ := hq
  have hfirst : throttleCall delay ⟨lastRun, none⟩ t₀ a₀
      = (⟨t₀, none⟩, some a₀) := by
    have hge : delay ≤ t₀ - lastRun := by omega
    simp [throttleCall, hge]
  have hsecond : throttleCall delay ⟨t₀, none⟩ qt qa
      = (⟨t₀, some (t₀ + delay, qa)⟩, none) := by
    have hc : ¬ delay ≤ qt - t₀ := by omega
    have harith : qt + (delay - (qt - t₀)) = t₀ + delay := by omega
    simp only [throttleCall, hc, if_false, ite_false]
    rw [harith]
  have hmain : throttleBurst delay ⟨lastRun, none⟩ ((t₀, a₀) :: (qt, qa) :: rest)
      = (⟨t₀, some (t₀ + delay, lastArg qa rest)⟩, [(t₀, a₀)]) := by
    rw [throttleBurst_cons, hfirst, throttleBurst_cons, hsecond,
      throttleBurst_scheduled delay t₀ qa rest hrest]
    rfl
  refine ⟨by rw [hmain], by rw [hmain], ?_⟩
  rw [hmain]
  simp [throttleFire]

/-- Witness for C5: ten cursor updates inside one 100 ms window
(`CURSOR_UPDATE_THROTTLE`), the first arriving with the throttle idle; the
first is sent at once and the boundary fire at 200 ms delivers the tenth. -/
theorem C5_cursor_throttle_witness :
    (throttleBurst COLLABORATION_CONFIG.CURSOR_UPDATE_THROTTLE ⟨0, none⟩
        ((100, 0) :: (110, 1) :: [(120, 2), (130, 3), (140, 4), (150, 5),
          (160, 6), (170, 7), (180, 8), (190, 9)])).2 = [(100, (0 : Nat))]
    ∧ (throttleBurst COLLABORATION_CONFIG.CURSOR_UPDATE_THROTTLE ⟨0, none⟩
        ((100, 0) :: (110, 1) :: [(120, 2), (130, 3), (140, 4), (150, 5),
          (160, 6), (170, 7), (180, 8), (190, 9)])).1
      = ⟨100, some (100 + COLLABORATION_CONFIG.CURSOR_UPDATE_THROTTLE,
          lastArg 1 [(120, 2), (130, 3), (140, 4), (150, 5),
            (160, 6), (170, 7), (180, 8), (190, 9)])⟩
    ∧ throttleFire
        (throttleBurst COLLABORATION_CONFIG.CURSOR_UPDATE_THROTTLE ⟨0, none⟩
          ((100, 0) :: (110, 1) :: [(120, 2), (130, 3), (140, 4), (150, 5),
            (160, 6), (170, 7), (180, 8), (190, 9)])).1
        (100 + COLLABORATION_CONFIG.CURSOR_UPDATE_THROTTLE)
      = (⟨100 + COLLABORATION_CONFIG.CURSOR_UPDATE_THROTTLE, none⟩,
         some (lastArg 1 [(120, 2), (130, 3), (140, 4), (150, 5),
           (160, 6), (170, 7), (180, 8), (190, 9)])) :=
  C5_cursor_throttle COLLABORATION_CONFIG.CURSOR_UPDATE_THROTTLE 0 100 0
    (110, 1) _ (by decide) (by decide) (by decide) (by decide)

/-- Counterexample for C5 as universally stated: `useThrottle` initializes
`lastRun` to the mount time, so a burst of three cursor updates lying inside
the first 100 ms interval after the hook mounts transmits no update
immediately — zero rather than exactly one; every update of the burst only
replaces the pending trailing timeout. -/
theorem C5_cursor_throttle_counterexample :
    (throttleBurst COLLABORATION_CONFIG.CURSOR_UPDATE_THROTTLE ⟨0, none⟩
        [(10, 0), (20, 1), (30, 2)]).2 = ([] : List (Nat × Nat)) := by
  rfl

/-- C6: the claim asserts timer-based auto-expiry of the typing indicator,
and the repository documents `TYPING_INDICATOR_TIMEOUT = 2000` for it, but
`setUserTyping` registers no timer at all: with `"u1"` set to typing and
then 2500 ms of silence — past the documented 2 s timeout — the tracker
still reports `"u1"` as typing.  The code keeps stale typing state forever
unless a later event clears it. -/
theorem C6_typing_indicator_never_expires :
    (trackerRun
        (trackerStep ⟨emptyCollaborationState, 0, []⟩ (.setTyping "u1" true))
        (List.replicate (COLLABORATION_CONFIG.TYPING_INDICATOR_TIMEOUT + 500)
          TrackerEvent.tick)).store.typingUsers "u1" = true
    ∧ COLLABORATION_CONFIG.TYPING_INDICATOR_TIMEOUT
      < (trackerRun
          (trackerStep ⟨emptyCollaborationState, 0, []⟩ (.setTyping "u1" true))
          (List.replicate (COLLABORATION_CONFIG.TYPING_INDICATOR_TIMEOUT + 500)
            TrackerEvent.tick)).now := by
  have hstep : trackerStep ⟨emptyCollaborationState, 0, []⟩
      (.setTyping "u1" true)
      = ⟨setUserTyping emptyCollaborationState "u1" true, 0, []⟩ := rfl
  rw [hstep, trackerRun_ticks_no_timers _ rfl]
  constructor
  · simp [setUserTyping]
  · decide

/-- C7: Inbound dispatch isolates handler failures — with any handlers
before and after a handler `h` that throws `e` on the payload, dispatch
still invokes every handler: the results are exactly those of the
surrounding handlers run on their own around the caught `e`, and one result
is produced per registered handler. -/
theorem C7_handler_isolation {α ε : Type}
    (l₁ l₂ : List (α → Except ε Unit)) (h : α → Except ε Unit) (p : α)
    (e : ε) (hthrow : h p = .error e) :
    handleMessage (l₁ ++ h :: l₂) p
      = handleMessage l₁ p ++ some e :: handleMessage l₂ p
    ∧ (handleMessage (l₁ ++ h :: l₂) p).length = (l₁ ++ h :: l₂).length := by
  have hlen : ∀ l : List (α → Except ε Unit),
      (handleMessage l p).length = l.length := by
    intro l
    induction l with
    | nil => rfl
    | cons g l ih => simp [handleMessage, ih]
  have key : ∀ l : List (α → Except ε Unit),
      handleMessage (l ++ h :: l₂) p
        = handleMessage l p ++ some e :: handleMessage l₂ p := by
    intro l
    induction l with
    | nil =>
      show runHandler h p :: handleMessage l₂ p = _
      simp [runHandler, hthrow, handleMessage]
    | cons g l ih =>
      show runHandler g p :: handleMessage (l ++ h :: l₂) p = _
      rw [ih]
      simp [handleMessage]
  exact ⟨key l₁, hlen _⟩

/-- Witness for C7: the middle of three handlers throws `"boom"` on payload
`0`; the first and third still run and return their own results. -/
theorem C7_handler_isolation_witness :
    handleMessage ([okHandler] ++ boomHandler :: [okHandler]) 0
      = handleMessage [okHandler] 0
          ++ some "boom" :: handleMessage [okHandler] 0
    ∧ (handleMessage ([okHandler] ++ boomHandler :: [okHandler]) 0).length
      = ([okHandler] ++ boomHandler :: [okHandler]).length :=
  C7_handler_isolation [okHandler] [okHandler] boomHandler 0 "boom" (by rfl)

/-- C8: `removeParticipant` purges the user's participant entry, cursor
position and typing flag in the one state it returns, leaves every other
user's entries in all three collections unchanged, and is idempotent. -/
theorem C8_removeParticipant_purge (s : CollaborationState) (u : String) :
    (removeParticipant s u).participants u = none
    ∧ (removeParticipant s u).cursorPositions u = none
    ∧ (removeParticipant s u).typingUsers u = false
    ∧ (∀ k, k ≠ u →
        (removeParticipant s u).participants k = s.participants k
        ∧ (removeParticipant s u).cursorPositions k = s.cursorPositions k
        ∧ (removeParticipant s u).typingUsers k = s.typingUsers k)
    ∧ removeParticipant (removeParticipant s u) u = removeParticipant s u := by
  refine ⟨by simp [removeParticipant], by simp [removeParticipant],
    by simp [removeParticipant], ?_, ?_⟩
  · intro k hk
    refine ⟨?_, ?_, ?_⟩ <;> simp [removeParticipant, hk]
  · unfold removeParticipant
    congr 1 <;> funext k <;> by_cases hk : k = u <;> simp [hk]

/-- Witness for C8 on a concrete two-user store: removing `"u1"` purges its
three entries, keeps `"u2"` intact, and removing again changes nothing. -/
theorem C8_removeParticipant_purge_witness :
    (removeParticipant demoCollabState "u1").participants "u1" = none
    ∧ (removeParticipant demoCollabState "u1").cursorPositions "u1" = none
    ∧ (removeParticipant demoCollabState "u1").typingUsers "u1" = false
    ∧ (∀ k, k ≠ "u1" →
        (removeParticipant demoCollabState "u1").participants k
          = demoCollabState.participants k
        ∧ (removeParticipant demoCollabState "u1").cursorPositions k
          = demoCollabState.cursorPositions k
        ∧ (removeParticipant demoCollabState "u1").typingUsers k
          = demoCollabState.typingUsers k)
    ∧ removeParticipant (removeParticipant demoCollabState "u1") "u1"
      = removeParticipant demoCollabState "u1" :=
  C8_removeParticipant_purge demoCollabState "u1"

/-- C9: the handler registry admits several handlers per event, and the
unsubscribe closure for `(event, h₁)` removes exactly that handler: `h₁` is
gone from `event`'s set while any other handler of `event`, and every
handler of every other event, keeps its registration. -/
theorem C9_on_unsubscribe (reg : Registry) (event : String)
    (h₁ h₂ : HandlerId) (hnd : (reg event).Nodup) (hne : h₁ ≠ h₂) :
    (h₁ ∈ onRegister (onRegister reg event h₁) event h₂ event
      ∧ h₂ ∈ onRegister (onRegister reg event h₁) event h₂ event
      ∧ onRegister (onRegister (fun _ => []) event h₁) event h₂ event
        = [h₁, h₂])
    ∧ h₁ ∉ unsubscribe reg event h₁ event
    ∧ (∀ e hh, e ≠ event →
        (hh ∈ unsubscribe reg event h₁ e ↔ hh ∈ reg e))
    ∧ (∀ hh, hh ≠ h₁ →
        (hh ∈ unsubscribe reg event h₁ event ↔ hh ∈ reg event)) := by
  have hu : unsubscribe reg event h₁ event = (reg event).erase h₁ := by
    simp [unsubscribe]
  refine ⟨⟨?_, ?_, ?_⟩, ?_, ?_, ?_⟩
  · exact mem_onRegister_mono _ event h₂ h₁
      (mem_onRegister_self reg event h₁)
  · exact mem_onRegister_self _ event h₂
  · simp [onRegister, hne.symm]
  · rw [hu]
    exact hnd.not_mem_erase
  · intro e hh he
    simp [unsubscribe, he]
  · intro hh hhne
    rw [hu]
    exact List.mem_erase_of_ne hhne

/-- Witness for C9 on the empty registry: register handlers `1` then `2` for
`content_change`, both are registered; unsubscribing `1` removes only it. -/
theorem C9_on_unsubscribe_witness :
    ((1 : HandlerId) ∈ onRegister (onRegister (fun _ => []) "content_change" 1)
        "content_change" 2 "content_change"
      ∧ (2 : HandlerId) ∈ onRegister (onRegister (fun _ => []) "content_change" 1)
        "content_change" 2 "content_change"
      ∧ onRegister (onRegister (fun _ => []) "content_change" 1)
        "content_change" 2 "content_change" = [1, 2])
    ∧ (1 : HandlerId) ∉ unsubscribe (fun _ => []) "content_change" 1 "content_change"
    ∧ (∀ e hh, e ≠ "content_change" →
        (hh ∈ unsubscribe (fun _ => ([] : List HandlerId)) "content_change" 1 e
          ↔ hh ∈ ([] : List HandlerId)))
    ∧ (∀ hh, hh ≠ 1 →
        (hh ∈ unsubscribe (fun _ => ([] : List HandlerId)) "content_change" 1
            "content_change"
          ↔ hh ∈ ([] : List HandlerId))) :=
  C9_on_unsubscribe (fun _ => []) "content_change" 1 2 List.nodup_nil
    (by decide)

end CodeCollab
